import Mathlib

/-!
Shallow embedding of `src/tools/feed_build.py` (the FitDrip feed builder).

The script fetches an XML feed, replaces the category tree, assigns
`categoryId` per offer from a vendor-code mapping, and rewrites offer
names with language-specific rules.  Pure string manipulation and tree
mutation are translated here into executable Lean functions; the XML
document is modelled by records carrying exactly the fields the script
reads or writes (element text already coerced the way the script does:
`findtext(..) or ""` makes an absent element and an empty text both `""`,
so a child element is an `Option String` with `none` for "element
absent").  JSON values that the script tests for truthiness are modelled
by `JVal`.  Python regex scans are modelled by fuel-based character
scanners; the fuel is always at least the length of the scanned list and
every step consumes at least one character, so the fuel never runs out.
-/

/-- A JSON scalar as the config files of the script can contain it: the script
applies Python truthiness (`if not new_cat`, `or ""`) and `str(...)` to
these values. -/
inductive JVal where
  | jstr (s : String)
  | jnum (n : Int)
  | jnull
deriving DecidableEq

/-- Python truthiness of a JSON scalar: empty string, zero and null are
falsy. -/
def JVal.truthy : JVal → Bool
  | .jstr s => s != ""
  | .jnum n => n != 0
  | .jnull => false

/-- Python `str(...)` of a JSON scalar. -/
def JVal.toStr : JVal → String
  | .jstr s => s
  | .jnum n => toString n
  | .jnull => "None"

/-- One `<offer>` element: the fields `feed_build.py` reads or writes.
`none` means the child element is absent. -/
structure Offer where
  id : String
  name : Option String
  description : Option String
  vendorCode : Option String
  vendor : Option String
  categoryId : Option String
deriving DecidableEq

/-- One output `<category>` element produced by `apply_categories`. -/
structure Category where
  id : String
  parentId : Option String
  text : String
deriving DecidableEq

/-- One entry of `tools/categories.json`: `{id, parentId?, ua, ru}`.  A
missing `parentId` key (`c.get("parentId", "")`) is modelled as
`jstr ""`. -/
structure CatDef where
  id : JVal
  parentId : JVal
  ua : String
  ru : String
deriving DecidableEq

/-- The `<shop>` element: its `<categories>` and `<offers>` children. -/
structure Shop where
  categories : Option (List Category)
  offers : Option (List Offer)
deriving DecidableEq

/-- The parsed feed document: the root with its `<shop>` child. -/
structure FeedDoc where
  shop : Option Shop
deriving DecidableEq

/-! ## Python string primitives -/

/-- Python `\w` for the alphabets this feed uses: ASCII alphanumerics,
underscore, and the Cyrillic block U+0400..U+04FF. -/
def isWordChar (c : Char) : Bool :=
  c.isAlphanum || c == '_' || (0x400 ≤ c.toNat && c.toNat ≤ 0x4FF)

/-- Python `str.lower` restricted to the alphabets this feed uses:
ASCII A-Z, Cyrillic А-Я, and Ё/Є/І/Ї/Ґ. -/
def pyLowerChar (c : Char) : Char :=
  if 0x41 ≤ c.toNat && c.toNat ≤ 0x5A then Char.ofNat (c.toNat + 0x20)
  else if 0x410 ≤ c.toNat && c.toNat ≤ 0x42F then Char.ofNat (c.toNat + 0x20)
  else if c.toNat == 0x401 || c.toNat == 0x404 || c.toNat == 0x406 || c.toNat == 0x407 then
    Char.ofNat (c.toNat + 0x50)
  else if c.toNat == 0x490 then Char.ofNat (c.toNat + 1)
  else c

/-- Python `str.lower` on a whole string. -/
def pyLower (s : String) : String := ⟨s.data.map pyLowerChar⟩

/-- Python `str.strip()` on a character list. -/
def pyStripL (l : List Char) : List Char :=
  ((l.dropWhile Char.isWhitespace).reverse.dropWhile Char.isWhitespace).reverse

/-- Python `str.strip()`. -/
def pyStrip (s : String) : String := ⟨pyStripL s.data⟩

/-- Case-sensitive prefix test on character lists. -/
def isPrefixL : List Char → List Char → Bool
  | [], _ => true
  | _ :: _, [] => false
  | a :: as, b :: bs => a == b && isPrefixL as bs

/-- Case-insensitive (via `pyLowerChar`) prefix test on character
lists. -/
def ciPrefixL : List Char → List Char → Bool
  | [], _ => true
  | _ :: _, [] => false
  | a :: as, b :: bs => pyLowerChar a == pyLowerChar b && ciPrefixL as bs

/-- Python `needle in hay` substring test, scanning left to right. -/
def containsSubGo : Nat → List Char → List Char → Bool
  | 0, hay, needle => isPrefixL needle hay
  | fuel + 1, hay, needle =>
    if isPrefixL needle hay then true
    else
      match hay with
      | [] => false
      | _ :: rest => containsSubGo fuel rest needle

/-- Python `needle in hay` on strings. -/
def strContains (hay needle : String) : Bool :=
  containsSubGo hay.data.length hay.data needle.data

/-- Regex word boundary `\b` at the start of `l` when the previous
character was a word character is impossible; this checks the boundary
after a match: end of input or a non-word character. -/
def boundaryAfter : List Char → Bool
  | [] => true
  | c :: _ => !isWordChar c

/-! ## `normalize_base_name`: `re.sub(r"\b\d+\s?(g|kg|caps|cap|tabs|tab|tablets|ml)\b", "", n, flags=re.I)` -/

/-- The unit-word alternatives of the size-token regex, in the alternation order of the source (the order matters for regex alternation). -/
def unitWords : List (List Char) :=
  [("g").data, ("kg").data, ("caps").data, ("cap").data,
   ("tabs").data, ("tab").data, ("tablets").data, ("ml").data]

/-- Try the unit alternation (case-insensitively) with its trailing `\b`
at the head of `l`; return the rest after the unit on success. -/
def tryUnit (l : List Char) : Option (List Char) :=
  unitWords.findSome? fun u =>
    if ciPrefixL u l && boundaryAfter (l.drop u.length) then some (l.drop u.length)
    else none

/-- Longest digit prefix: its length and the rest. -/
def spanDigits : List Char → Nat × List Char
  | [] => (0, [])
  | c :: rest =>
    if c.isDigit then
      let p := spanDigits rest
      (p.1 + 1, p.2)
    else (0, c :: rest)

/-- Match `\d+\s?(unit)\b` at the head of `l` (the leading `\b` is
checked by the caller); returns the rest after the match.  `\s?` is
greedy: one whitespace character is tried first, then zero. -/
def matchSizeToken (l : List Char) : Option (List Char) :=
  match l with
  | [] => none
  | c :: _ =>
    if c.isDigit then
      let p := spanDigits l
      match p.2 with
      | [] => none
      | w :: rest2 =>
        if w.isWhitespace then
          match tryUnit rest2 with
          | some r => some r
          | none => tryUnit (w :: rest2)
        else tryUnit (w :: rest2)
    else none

/-- Global `re.sub` scan deleting size tokens.  `prevW` tracks whether
the previous character of the original string was a word character (for
the leading `\b`); a match always ends in a unit letter, so scanning
resumes with `prevW = true`. -/
def subSizeGo : Nat → Bool → List Char → List Char
  | 0, _, l => l
  | _ + 1, _, [] => []
  | fuel + 1, prevW, c :: rest =>
    if prevW then c :: subSizeGo fuel (isWordChar c) rest
    else
      match matchSizeToken (c :: rest) with
      | some r => subSizeGo fuel true r
      | none => c :: subSizeGo fuel (isWordChar c) rest

/-- `re.sub(r"\s{2,}", " ", n)`: collapse runs of two or more whitespace
characters to one space (a lone whitespace character is kept as is). -/
def collapseWS2Go : Nat → List Char → List Char
  | 0, l => l
  | _ + 1, [] => []
  | fuel + 1, c :: rest =>
    if c.isWhitespace then
      match rest with
      | d :: _ =>
        if d.isWhitespace then ' ' :: collapseWS2Go fuel (rest.dropWhile Char.isWhitespace)
        else c :: collapseWS2Go fuel rest
      | [] => [c]
    else c :: collapseWS2Go fuel rest

/-- `normalize_base_name` from the source: strip, delete
`\b\d+\s?(g|kg|caps|cap|tabs|tab|tablets|ml)\b` (case-insensitive),
strip, collapse repeated whitespace. -/
def normalize_base_name (name : String) : String :=
  let n := pyStripL name.data
  let n2 := pyStripL (subSizeGo (n.length + 1) false n)
  ⟨collapseWS2Go (n2.length + 1) n2⟩

/-! ## `clean_desc` and `extract_purpose` -/

/-- `re.sub(r"\s+", " ", t)`: every whitespace run becomes one space. -/
def collapseWS1Go : Nat → List Char → List Char
  | 0, l => l
  | _ + 1, [] => []
  | fuel + 1, c :: rest =>
    if c.isWhitespace then ' ' :: collapseWS1Go fuel ((c :: rest).dropWhile Char.isWhitespace)
    else c :: collapseWS1Go fuel rest

/-- The label-word alternatives of the split regex of `clean_desc`
(case-sensitive, each followed by `\b`). -/
def labelWords : List (List Char) :=
  [("Штрихкод").data, ("Артикул").data, ("SKU").data,
   ("Код").data, ("Виробник").data, ("Производитель").data]

/-- Does a label word (with its trailing `\b`) match at the head of
`l`? -/
def labelAt (l : List Char) : Bool :=
  labelWords.any fun u => isPrefixL u l && boundaryAfter (l.drop u.length)

/-- `re.split(r"(Штрихкод|...)\b", t, maxsplit=1)[0]`: the prefix before
the first label-word match. -/
def splitLabelGo : Nat → List Char → List Char
  | 0, l => l
  | _ + 1, [] => []
  | fuel + 1, c :: rest =>
    if labelAt (c :: rest) then []
    else c :: splitLabelGo fuel rest

/-- `clean_desc` from the source: empty in, empty out; otherwise
collapse whitespace, strip, cut at the first label word, strip. -/
def clean_desc (text : String) : String :=
  if text == "" then ""
  else
    let t := pyStripL (collapseWS1Go (text.data.length + 1) text.data)
    let t2 := splitLabelGo (t.length + 1) t
    ⟨pyStripL t2⟩

/-- The characters excluded by the character class of the purpose regex. -/
def punctStop (c : Char) : Bool := c == '.' || c == '!' || c == '?'

/-- Length of the longest prefix satisfying `p`. -/
def countWhile (p : Char → Bool) : List Char → Nat
  | [] => 0
  | c :: rest => if p c then countWhile p rest + 1 else 0

/-- Match `(для\s+[^\.\!\?]{10,90})` (case-insensitive) at the head of
`l`.  With `w` the maximal whitespace run after `для` and `r` the
maximal run of non-`.!?` characters after it, backtracking of the two
greedy quantifiers yields a match exactly when `w ≥ 1` and
`w + r ≥ 11`, consuming `w + min r 90` characters after `для`. -/
def purposeAt (l : List Char) : Option (List Char) :=
  if ciPrefixL (("для").data) l then
    let after := l.drop 3
    let w := countWhile Char.isWhitespace after
    let r := countWhile (fun c => !punctStop c) (after.drop w)
    if 1 ≤ w && 11 ≤ w + r then some (l.take (3 + w + min r 90)) else none
  else none

/-- `re.search` scan for the purpose pattern: leftmost match wins. -/
def purposeSearchGo : Nat → List Char → Option (List Char)
  | 0, _ => none
  | _ + 1, [] => none
  | fuel + 1, c :: rest =>
    match purposeAt (c :: rest) with
    | some g => some g
    | none => purposeSearchGo fuel rest

/-- The character set of `strip(" -–—:;,.")`. -/
def stripSet : List Char := (" -–—:;,.").data

/-- Python `str.strip(" -–—:;,.")`. -/
def stripSetL (l : List Char) : List Char :=
  ((l.dropWhile (fun c => stripSet.contains c)).reverse.dropWhile
      (fun c => stripSet.contains c)).reverse

/-- `d.split()`: split on whitespace runs, dropping empty words. -/
def wordsGo : Nat → List Char → List (List Char)
  | 0, _ => []
  | _ + 1, [] => []
  | fuel + 1, c :: rest =>
    if c.isWhitespace then wordsGo fuel rest
    else
      (c :: rest).takeWhile (fun d => !d.isWhitespace) ::
        wordsGo fuel ((c :: rest).dropWhile (fun d => !d.isWhitespace))

/-- `" ".join(words)`. -/
def joinSpace : List (List Char) → List Char
  | [] => []
  | [w] => w
  | w :: ws => w ++ ' ' :: joinSpace ws

/-- `extract_purpose` from the source: clean the description, try the
`для ...` phrase, else the first 8 words, each stripped of
`" -–—:;,."`. -/
def extract_purpose (desc : String) : String :=
  let d := clean_desc desc
  if d == "" then ""
  else
    match purposeSearchGo (d.data.length + 1) d.data with
    | some g => ⟨stripSetL g⟩
    | none => ⟨stripSetL (joinSpace ((wordsGo (d.data.length + 1) d.data).take 8))⟩

/-! ## UA naming rules -/

/-- `UA_TYPE_RULES` from the source, in order. -/
def UA_TYPE_RULES : List (List String × String) :=
  [(["creatine"], "креатин моногідрат"),
   (["omega", "omega 3", "epa", "dha"], "омега-3 жирні кислоти"),
   (["collagen"], "гідролізований колаген"),
   (["whey", "whey protein", "whey isolate", "isolate", "protein"], "сироватковий протеїн"),
   (["bcaa"], "амінокислоти BCAA"),
   (["glutamine"], "глютамін"),
   (["multivitamin", "multi"], "мультивітамінний комплекс"),
   (["zinc"], "цинк"),
   (["magnesium"], "магній"),
   (["vitamin c"], "вітамін C"),
   (["vitamin d"], "вітамін D")]

/-- `detect_ua_type` from the source: first rule whose keyword set has a
case-insensitive substring match in the name wins. -/
def detect_ua_type (base : String) : String :=
  let lname := pyLower base
  match UA_TYPE_RULES.find? (fun rule => rule.1.any fun k => strContains lname k) with
  | some rule => rule.2
  | none => ""

/-- The `\bAnimal Flex\b` pattern (matched case-insensitively). -/
def afPat : List Char := ("animal flex").data

/-- Does `\bAnimal Flex\b` match at the head of `l` (the leading `\b`
is checked by the caller)? -/
def animalFlexAt (l : List Char) : Bool :=
  ciPrefixL afPat l && boundaryAfter (l.drop afPat.length)

/-- `re.search(r"\bAnimal Flex\b", n, flags=re.I)` as a Boolean. -/
def animalFlexSearchGo : Nat → Bool → List Char → Bool
  | 0, _, _ => false
  | _ + 1, _, [] => false
  | fuel + 1, prevW, c :: rest =>
    if !prevW && animalFlexAt (c :: rest) then true
    else animalFlexSearchGo fuel (isWordChar c) rest

/-- Search wrapper on strings. -/
def animalFlexSearch (s : String) : Bool :=
  animalFlexSearchGo (s.data.length + 1) false s.data

/-- `re.sub(r"(?i)\bAnimal Flex\b", "Animal Flex", n)`: every match is
replaced by the canonically-cased phrase; scanning resumes after the
match (whose last character `x` is a word character). -/
def animalFlexSubGo : Nat → Bool → List Char → List Char
  | 0, _, l => l
  | _ + 1, _, [] => []
  | fuel + 1, prevW, c :: rest =>
    if !prevW && animalFlexAt (c :: rest) then
      ("Animal Flex").data ++ animalFlexSubGo fuel true ((c :: rest).drop afPat.length)
    else c :: animalFlexSubGo fuel (isWordChar c) rest

/-- Substitution wrapper on strings. -/
def animalFlexSub (s : String) : String :=
  ⟨animalFlexSubGo (s.data.length + 1) false s.data⟩

/-- `rename_ua` from the source: the Animal Flex override, then keyword
type detection, then purpose extraction (only without an em-dash or
colon in the base), then the brand fallback, else the stripped raw
name. -/
def rename_ua (name desc vendor : String) : String :=
  let n := pyStrip name
  if animalFlexSearch n then
    pyStrip (pyStrip (animalFlexSub n) ++ " " ++ vendor) ++ " — комплекс для суглобів та зв\u0027язок"
  else
    let base := normalize_base_name n
    let v := pyStrip vendor
    let fallback :=
      if v != "" && !strContains (pyLower base) (pyLower v) then base ++ " " ++ v else n
    let product_type := detect_ua_type base
    if product_type != "" then
      if v != "" then base ++ " " ++ v ++ " — " ++ product_type
      else base ++ " — " ++ product_type
    else if !strContains base "—" && !strContains base ":" then
      let purpose := extract_purpose desc
      if purpose != "" then
        if v != "" then base ++ " " ++ v ++ " — " ++ purpose
        else base ++ " — " ++ purpose
      else fallback
    else fallback

/-- `rename_ru` from the source: base normalization plus the brand
fallback only (`desc` is unused by the source as well). -/
def rename_ru (name desc vendor : String) : String :=
  let n := pyStrip name
  let base := normalize_base_name n
  let v := pyStrip vendor
  if v != "" && !strContains (pyLower base) (pyLower v) then base ++ " " ++ v
  else n

/-! ## Category taxonomy and category assignment -/

/-- One output `<category>` element of `apply_categories`:
`id = str(c["id"])`, `parentId` from `str(c.get("parentId","") or
"").strip()` only when non-empty, text the label for the language. -/
def mkCategory (lang : String) (c : CatDef) : Category :=
  let parent := pyStrip (if c.parentId.truthy then c.parentId.toStr else "")
  { id := c.id.toStr
    parentId := if parent != "" then some parent else none
    text := if lang == "ua" then c.ua else c.ru }

/-- `apply_categories` from the source: drop the old `<categories>` and
rebuild it entirely from the definition list. -/
def apply_categories (shop : Shop) (categories_def : List CatDef) (lang : String) : Shop :=
  { shop with categories := some (categories_def.map (mkCategory lang)) }

/-- The loop body of `apply_category_ids` for one offer: strip the
vendor code; skip when empty; look it up; skip when absent or falsy;
otherwise set `<categoryId>` (creating it if needed) to `str(new_cat)`. -/
def assignCategoryId (category_map : List (String × JVal)) (offer : Offer) : Offer :=
  let vendor_code := pyStrip (offer.vendorCode.getD "")
  if vendor_code == "" then offer
  else
    match category_map.lookup vendor_code with
    | none => offer
    | some new_cat =>
      if new_cat.truthy then { offer with categoryId := some new_cat.toStr }
      else offer

/-- `apply_category_ids` from the source, over the offers list. -/
def apply_category_ids (category_map : List (String × JVal)) (offers : List Offer) : List Offer :=
  offers.map (assignCategoryId category_map)

/-- The rename loop body of `build` for one offer: skip offers without
a `<name>` element; otherwise rewrite the name text with the
language-specific rule, reading description and vendor with the `or ""` defaults of the source. -/
def renameOffer (lang : String) (offer : Offer) : Offer :=
  match offer.name with
  | none => offer
  | some name_txt =>
    let desc_txt := offer.description.getD ""
    let vendor := offer.vendor.getD ""
    if lang == "ua" then { offer with name := some (rename_ua name_txt desc_txt vendor) }
    else { offer with name := some (rename_ru name_txt desc_txt vendor) }

/-- `build` from the source, after the fetch: the fetched document, the
two config files and the language are inputs; a missing `<shop>` or
`<offers>` raises (modelled as `Except.error` with the message of the source). -/
def build (doc : FeedDoc) (categories_def : List CatDef)
    (category_map : List (String × JVal)) (lang : String) : Except String FeedDoc :=
  match doc.shop with
  | none => Except.error "Не найден <shop>"
  | some shop =>
    let shop2 := apply_categories shop categories_def lang
    match shop2.offers with
    | none => Except.error "Не найден <offers>"
    | some offers_node =>
      let offers2 := apply_category_ids category_map offers_node
      let offers3 := offers2.map (renameOffer lang)
      Except.ok { doc with shop := some { shop2 with offers := some offers3 } }

/-- The `<shop>` element of a successful build result (a dummy empty
shop otherwise); used to state theorems without existential binders. -/
def buildShop (r : Except String FeedDoc) : Shop :=
  match r with
  | Except.ok d => d.shop.getD { categories := none, offers := none }
  | Except.error _ => { categories := none, offers := none }

/-- The offers list of a successful build result. -/
def buildOffers (r : Except String FeedDoc) : List Offer :=
  (buildShop r).offers.getD []

/-! ## Theorems -/

/-- C4: UA title normalization applied to name "Creatine Monohydrate",
empty description, and vendor "Optimum" returns exactly
"Creatine Monohydrate Optimum — креатин моногідрат". -/
theorem rename_ua_creatine_concrete :
    rename_ua "Creatine Monohydrate" "" "Optimum" =
      "Creatine Monohydrate Optimum — креатин моногідрат" := by decide

/-- C10: for every offer that has no name child element, the
title-normalization pass of `build` leaves the offer entirely unchanged
and in particular never creates a name element, for either language. -/
theorem renameOffer_skips_offer_without_name (lang : String) (o : Offer)
    (h : o.name = none) :
    renameOffer lang o = o ∧ (renameOffer lang o).name = none := by
  have h1 : renameOffer lang o = o := by
    unfold renameOffer
    rw [h]
  exact ⟨h1, by rw [h1, h]⟩

/-- Witness for C10 at a concrete offer without a name element. -/
theorem renameOffer_skips_offer_without_name_witness :
    renameOffer "ua"
        { id := "7", name := none, description := some "d", vendorCode := some "vc",
          vendor := some "Brand", categoryId := none } =
      { id := "7", name := none, description := some "d", vendorCode := some "vc",
        vendor := some "Brand", categoryId := none } :=
  (renameOffer_skips_offer_without_name "ua" _ rfl).1

/-- C6: for every input, RU title normalization ignores the description
entirely and returns either the stripped raw name or the normalized
base name followed by the vendor string. -/
theorem rename_ru_base_and_brand_only (name d1 d2 vendor : String) :
    rename_ru name d1 vendor = rename_ru name d2 vendor ∧
    (rename_ru name d1 vendor = pyStrip name ∨
     rename_ru name d1 vendor = normalize_base_name (pyStrip name) ++ " " ++ pyStrip vendor) := by
  refine ⟨rfl, ?_⟩
  simp only [rename_ru]
  split
  · exact Or.inr rfl
  · exact Or.inl rfl

/-- C1 counterexample: the vendor code "A" is present as a key in the
mapping (with the falsy value `""`), yet the category assigner leaves
the old category identifier of the offer "OLD" in place instead of writing
the mapped value, refuting the claim as stated. -/
theorem apply_category_ids_present_key_not_applied :
    List.lookup "A" [("A", JVal.jstr "")] = some (JVal.jstr "") ∧
    apply_category_ids [("A", JVal.jstr "")]
        [{ id := "1", name := none, description := none, vendorCode := some "A",
           vendor := none, categoryId := some "OLD" }] =
      [{ id := "1", name := none, description := none, vendorCode := some "A",
         vendor := none, categoryId := some "OLD" }] ∧
    ("OLD" : String) ≠ (JVal.jstr "").toStr := by decide

/-- C1 (amended): the assigner maps each offer independently; an offer
whose whitespace-stripped vendor code is a key of the mapping with a
truthy value gets `str(value)` as its category identifier (the element
being created if absent), and every other offer — empty stripped vendor
code, key absent, or value falsy — is returned unchanged, so its
category identifier equals the input one or remains absent. -/
theorem apply_category_ids_truthy_mapping (m : List (String × JVal))
    (offers : List Offer) (o : Offer) :
    apply_category_ids m offers = offers.map (assignCategoryId m) ∧
    (∀ v : JVal, pyStrip (o.vendorCode.getD "") ≠ "" →
      m.lookup (pyStrip (o.vendorCode.getD "")) = some v → v.truthy = true →
      assignCategoryId m o = { o with categoryId := some v.toStr }) ∧
    ((pyStrip (o.vendorCode.getD "") = "" ∨
      m.lookup (pyStrip (o.vendorCode.getD "")) = none ∨
      (∃ v : JVal, m.lookup (pyStrip (o.vendorCode.getD "")) = some v ∧ v.truthy = false)) →
      assignCategoryId m o = o) := by
  refine ⟨rfl, ?_, ?_⟩
  · intro v h0 hl ht
    simp [assignCategoryId, h0, hl, ht]
  · rintro (h0 | hl | ⟨v, hl, ht⟩)
    · simp [assignCategoryId, h0]
    · by_cases h0 : pyStrip (o.vendorCode.getD "") = ""
      · simp [assignCategoryId, h0]
      · simp [assignCategoryId, h0, hl]
    · by_cases h0 : pyStrip (o.vendorCode.getD "") = ""
      · simp [assignCategoryId, h0]
      · simp [assignCategoryId, h0, hl, ht]

/-- Witness for the amended C1 at a concrete mapping and offer: a key
present with the truthy value "5" rewrites the category identifier. -/
theorem apply_category_ids_truthy_mapping_witness :
    assignCategoryId [("A", JVal.jstr "5")]
        { id := "1", name := none, description := none, vendorCode := some "A",
          vendor := none, categoryId := some "OLD" } =
      { id := "1", name := none, description := none, vendorCode := some "A",
        vendor := none, categoryId := some "5" } :=
  (apply_category_ids_truthy_mapping [("A", JVal.jstr "5")] []
      { id := "1", name := none, description := none, vendorCode := some "A",
        vendor := none, categoryId := some "OLD" }).2.1
    (JVal.jstr "5") (by decide) (by decide) (by decide)

/-- C9: the assigner sets the category identifier if and only if the
stripped vendor code is non-empty and the looked-up value is truthy —
it then writes `str(value)` into the offer — while a falsy value
(empty string, zero, null) behaves exactly like an absent key, leaving
the offer — in particular its category identifier or its absence —
unchanged. -/
theorem assignCategoryId_truthy_gate (m : List (String × JVal)) (o : Offer) :
    (assignCategoryId m o ≠ o →
      pyStrip (o.vendorCode.getD "") ≠ "" ∧
      ∃ v : JVal, m.lookup (pyStrip (o.vendorCode.getD "")) = some v ∧ v.truthy = true) ∧
    (∀ v : JVal, pyStrip (o.vendorCode.getD "") ≠ "" →
      m.lookup (pyStrip (o.vendorCode.getD "")) = some v → v.truthy = true →
      assignCategoryId m o = { o with categoryId := some v.toStr }) ∧
    (∀ v : JVal, m.lookup (pyStrip (o.vendorCode.getD "")) = some v → v.truthy = false →
      assignCategoryId m o = o) ∧
    (m.lookup (pyStrip (o.vendorCode.getD "")) = none → assignCategoryId m o = o) := by
  refine ⟨?_, ?_, ?_, ?_⟩
  · intro hne
    by_cases h0 : pyStrip (o.vendorCode.getD "") = ""
    · exact absurd (by simp [assignCategoryId, h0]) hne
    · refine ⟨h0, ?_⟩
      cases hl : m.lookup (pyStrip (o.vendorCode.getD "")) with
      | none => exact absurd (by simp [assignCategoryId, h0, hl]) hne
      | some v =>
        cases ht : v.truthy with
        | false => exact absurd (by simp [assignCategoryId, h0, hl, ht]) hne
        | true => exact ⟨v, rfl, ht⟩
  · intro v h0 hl ht
    simp [assignCategoryId, h0, hl, ht]
  · intro v hl ht
    by_cases h0 : pyStrip (o.vendorCode.getD "") = ""
    · simp [assignCategoryId, h0]
    · simp [assignCategoryId, h0, hl, ht]
  · intro hl
    by_cases h0 : pyStrip (o.vendorCode.getD "") = ""
    · simp [assignCategoryId, h0]
    · simp [assignCategoryId, h0, hl]

/-- Witness for C9 at a concrete mapping and offer: the key present
with the truthy value "c77" writes that identifier, and the same key
present with the falsy value `""` leaves the offer unchanged. -/
theorem assignCategoryId_truthy_gate_witness :
    (assignCategoryId [("B", JVal.jstr "c77")]
        { id := "2", name := none, description := none, vendorCode := some " B ",
          vendor := none, categoryId := none } =
      { id := "2", name := none, description := none, vendorCode := some " B ",
        vendor := none, categoryId := some "c77" }) ∧
    (assignCategoryId [("B", JVal.jstr "")]
        { id := "2", name := none, description := none, vendorCode := some " B ",
          vendor := none, categoryId := none } =
      { id := "2", name := none, description := none, vendorCode := some " B ",
        vendor := none, categoryId := none }) :=
  ⟨(assignCategoryId_truthy_gate [("B", JVal.jstr "c77")]
      { id := "2", name := none, description := none, vendorCode := some " B ",
        vendor := none, categoryId := none }).2.1
    (JVal.jstr "c77") (by decide) (by decide) (by decide),
   (assignCategoryId_truthy_gate [("B", JVal.jstr "")]
      { id := "2", name := none, description := none, vendorCode := some " B ",
        vendor := none, categoryId := none }).2.2.1
    (JVal.jstr "") (by decide) (by decide)⟩

/-- C5 counterexample: the name already contains an em-dash (it is
exactly an already-normalized UA title), yet re-running the UA
normalization appends the keyword-inferred type text again, so the
claimed idempotence fails. -/
theorem rename_ua_emdash_reapplies_type :
    strContains "Creatine — креатин моногідрат" "—" = true ∧
    rename_ua "Creatine — креатин моногідрат" "" "" =
      "Creatine — креатин моногідрат — креатин моногідрат" ∧
    rename_ua "Creatine — креатин моногідрат" "" "" ≠ "Creatine — креатин моногідрат" := by
  decide

/-- C5 (amended): an em-dash in the normalized base name only
suppresses the purpose-extraction stage — the description can never
influence the result — and re-running UA normalization is a no-op
exactly on the names that additionally trigger neither the Animal Flex
override nor keyword type inference and whose vendor is empty or
already contained in the base name. -/
theorem rename_ua_emdash_limits :
    (∀ name d1 d2 vendor : String,
      strContains (normalize_base_name (pyStrip name)) "—" = true →
      rename_ua name d1 vendor = rename_ua name d2 vendor) ∧
    (∀ name desc vendor : String, pyStrip name = name →
      animalFlexSearch name = false →
      detect_ua_type (normalize_base_name name) = "" →
      strContains (normalize_base_name name) "—" = true →
      (pyStrip vendor = "" ∨
        strContains (pyLower (normalize_base_name name)) (pyLower (pyStrip vendor)) = true) →
      rename_ua name desc vendor = name) := by
  constructor
  · intro name d1 d2 vendor h
    by_cases hA : animalFlexSearch (pyStrip name) = true
    · simp [rename_ua, hA]
    · have hA2 : animalFlexSearch (pyStrip name) = false := by
        simpa using hA
      simp [rename_ua, hA2, h]
  · intro name desc vendor hs hA ht hd hv
    rcases hv with hv | hv
    · simp [rename_ua, hs, hA, ht, hd, hv]
    · simp [rename_ua, hs, hA, ht, hd, hv]

/-- Witness for the amended C5 at a concrete em-dash name with no type
keyword, no Animal Flex phrase and an empty vendor. -/
theorem rename_ua_emdash_limits_witness :
    rename_ua "Xyz — щось" "опис один" "" = rename_ua "Xyz — щось" "опис два" "" ∧
    rename_ua "Xyz — щось" "опис один" "" = "Xyz — щось" :=
  ⟨rename_ua_emdash_limits.1 "Xyz — щось" "опис один" "опис два" "" (by decide),
   rename_ua_emdash_limits.2 "Xyz — щось" "опис один" "" (by decide) (by decide)
     (by decide) (by decide) (Or.inl (by decide))⟩

/-- Appending strings appends the character lists. -/
theorem string_data_append (a b : String) : (a ++ b).data = a.data ++ b.data := rfl

/-- A list is a prefix of itself followed by anything. -/
theorem isPrefixL_self_append (l m : List Char) : isPrefixL l (l ++ m) = true := by
  induction l with
  | nil => rfl
  | cons a t ih => simp [isPrefixL, ih]

/-- C7 counterexample: on the exact-phrase override path the returned
title retains the trailing size token "500g" of the raw name even
though base normalization would have removed it, refuting the claim
that base normalization is applied on every rename path. -/
theorem rename_ua_animal_flex_keeps_size_token :
    rename_ua "Animal Flex 500g" "" "Universal" =
      "Animal Flex 500g Universal — комплекс для суглобів та зв\u0027язок" ∧
    strContains (rename_ua "Animal Flex 500g" "" "Universal") "500g" = true ∧
    normalize_base_name "Animal Flex 500g" = "Animal Flex" := by decide

/-- C7 (amended): base normalization is applied before the
keyword-type, purpose-extraction and brand-suffix rename paths — on any
input not matching the Animal Flex override, the result either begins
with the normalized base name or is the stripped raw name returned
unchanged by the no-op fallback (a path that, like the override path,
can retain a trailing size/unit token). -/
theorem rename_ua_nonoverride_starts_with_base (name desc vendor : String)
    (hA : animalFlexSearch (pyStrip name) = false) :
    rename_ua name desc vendor = pyStrip name ∨
    isPrefixL (normalize_base_name (pyStrip name)).data (rename_ua name desc vendor).data = true := by
  simp only [rename_ua, hA, Bool.false_eq_true, if_false]
  split
  · split
    · right
      simp only [string_data_append, List.append_assoc]
      exact isPrefixL_self_append _ _
    · right
      simp only [string_data_append, List.append_assoc]
      exact isPrefixL_self_append _ _
  · split
    · split
      · split
        · right
          simp only [string_data_append, List.append_assoc]
          exact isPrefixL_self_append _ _
        · right
          simp only [string_data_append, List.append_assoc]
          exact isPrefixL_self_append _ _
      · split
        · right
          simp only [string_data_append, List.append_assoc]
          exact isPrefixL_self_append _ _
        · left; rfl
    · split
      · right
        simp only [string_data_append, List.append_assoc]
        exact isPrefixL_self_append _ _
      · left; rfl

/-- Witness for the amended C7 at a concrete keyword-path input: the
result starts with the normalized base "Whey Pro". -/
theorem rename_ua_nonoverride_starts_with_base_witness :
    rename_ua "Whey Pro 500g" "" "ON" = pyStrip "Whey Pro 500g" ∨
    isPrefixL (normalize_base_name (pyStrip "Whey Pro 500g")).data
        (rename_ua "Whey Pro 500g" "" "ON").data = true :=
  rename_ua_nonoverride_starts_with_base "Whey Pro 500g" "" "ON" (by decide)

/-- C2: after a build (for any requested language), the categories
collection under shop is exactly one element per taxonomy entry —
carrying the stringified id, a parentId only when the stripped parent
field is non-empty (and then equal to it), and the label for the
requested language — independent of whatever categories the fetched
document contained. -/
theorem build_replaces_categories_with_taxonomy (doc : FeedDoc) (defs : List CatDef)
    (m : List (String × JVal)) (lang : String) (shopIn : Shop) (offersIn : List Offer)
    (h1 : doc.shop = some shopIn) (h2 : shopIn.offers = some offersIn) :
    (buildShop (build doc defs m lang)).categories = some (defs.map (mkCategory lang)) ∧
    ∀ c ∈ defs,
      (mkCategory lang c).id = c.id.toStr ∧
      (mkCategory lang c).text = (if lang == "ua" then c.ua else c.ru) ∧
      ((mkCategory lang c).parentId = none ↔
        pyStrip (if c.parentId.truthy then c.parentId.toStr else "") = "") ∧
      ∀ p : String, (mkCategory lang c).parentId = some p →
        p = pyStrip (if c.parentId.truthy then c.parentId.toStr else "") := by
  constructor
  · simp [build, h1, h2, apply_categories, buildShop]
  · intro c _
    refine ⟨by simp [mkCategory], by simp [mkCategory], ?_, ?_⟩
    · by_cases hp : pyStrip (if c.parentId.truthy then c.parentId.toStr else "") = ""
      · simp [mkCategory, hp]
      · simp [mkCategory, hp]
    · intro p hp2
      by_cases hp : pyStrip (if c.parentId.truthy then c.parentId.toStr else "") = ""
      · simp [mkCategory, hp] at hp2
      · simp [mkCategory, hp] at hp2
        exact hp2.symm

/-- Witness for C2 at a concrete document carrying a feed category that
the build discards in favour of the one-entry taxonomy. -/
theorem build_replaces_categories_with_taxonomy_witness :
    (buildShop (build
        { shop := some { categories := some [{ id := "999", parentId := none, text := "old" }],
                         offers := some [] } }
        [{ id := JVal.jnum 10, parentId := JVal.jstr "", ua := "Категорія", ru := "Категория" }]
        [] "ua")).categories =
      some ([{ id := JVal.jnum 10, parentId := JVal.jstr "", ua := "Категорія",
               ru := "Категория" }].map (mkCategory "ua")) :=
  (build_replaces_categories_with_taxonomy
      { shop := some { categories := some [{ id := "999", parentId := none, text := "old" }],
                       offers := some [] } }
      [{ id := JVal.jnum 10, parentId := JVal.jstr "", ua := "Категорія", ru := "Категория" }]
      [] "ua"
      { categories := some [{ id := "999", parentId := none, text := "old" }],
        offers := some [] }
      [] rfl rfl).1

/-- A list is pointwise related to its image under a map whenever the
function realizes the relation. -/
theorem map_forall2_self {α β : Type} (R : α → β → Prop) (f : α → β)
    (h : ∀ a, R a (f a)) : ∀ l : List α, List.Forall₂ R l (l.map f)
  | [] => List.Forall₂.nil
  | a :: t => List.Forall₂.cons (h a) (map_forall2_self R f h t)

/-- The category assigner never touches the id attribute or the
vendorCode element of an offer. -/
theorem assignCategoryId_preserves_key_fields (m : List (String × JVal)) (o : Offer) :
    (assignCategoryId m o).id = o.id ∧ (assignCategoryId m o).vendorCode = o.vendorCode := by
  by_cases h0 : pyStrip (o.vendorCode.getD "") = ""
  · simp [assignCategoryId, h0]
  · cases hl : List.lookup (pyStrip (o.vendorCode.getD "")) m with
    | none => simp [assignCategoryId, h0, hl]
    | some v =>
      cases ht : v.truthy with
      | true => simp [assignCategoryId, h0, hl, ht]
      | false => simp [assignCategoryId, h0, hl, ht]

/-- The title rename pass never touches the id attribute or the
vendorCode element of an offer. -/
theorem renameOffer_preserves_key_fields (lang : String) (o : Offer) :
    (renameOffer lang o).id = o.id ∧ (renameOffer lang o).vendorCode = o.vendorCode := by
  cases hn : o.name with
  | none => simp [renameOffer, hn]
  | some t =>
    refine ⟨?_, ?_⟩ <;> simp only [renameOffer, hn] <;> split <;> rfl

/-- C3: no transformation stage of `build` — taxonomy injection,
category assignment or title normalization — ever alters an offer id
attribute or vendorCode element: the output offers are pointwise
id/vendorCode-equal to the input offers. -/
theorem build_preserves_offer_id_and_vendorCode (doc : FeedDoc) (defs : List CatDef)
    (m : List (String × JVal)) (lang : String) (shopIn : Shop) (offersIn : List Offer)
    (h1 : doc.shop = some shopIn) (h2 : shopIn.offers = some offersIn) :
    (∀ o : Offer,
      (assignCategoryId m o).id = o.id ∧ (assignCategoryId m o).vendorCode = o.vendorCode ∧
      (renameOffer lang o).id = o.id ∧ (renameOffer lang o).vendorCode = o.vendorCode) ∧
    List.Forall₂ (fun a b => a.id = b.id ∧ a.vendorCode = b.vendorCode)
      offersIn (buildOffers (build doc defs m lang)) := by
  have hass := assignCategoryId_preserves_key_fields m
  have hren := renameOffer_preserves_key_fields lang
  refine ⟨fun o => ⟨(hass o).1, (hass o).2, (hren o).1, (hren o).2⟩, ?_⟩
  have hb : buildOffers (build doc defs m lang) =
      (offersIn.map (assignCategoryId m)).map (renameOffer lang) := by
    simp [build, h1, h2, apply_categories, apply_category_ids, buildOffers, buildShop]
  rw [hb, List.map_map]
  refine map_forall2_self _ _ (fun o => ?_) offersIn
  exact ⟨(((hren (assignCategoryId m o)).1).trans (hass o).1).symm,
    (((hren (assignCategoryId m o)).2).trans (hass o).2).symm⟩

/-- A concrete offer used by the C3 witness. -/
def witOffer : Offer :=
  { id := "9", name := some "Creatine", description := none, vendorCode := some "VC",
    vendor := some "ON", categoryId := none }

/-- A concrete shop used by the C3 witness. -/
def witShop : Shop := { categories := none, offers := some [witOffer] }

/-- Witness for C3 at a concrete offer and mapping: both stages keep id
and vendorCode. -/
theorem build_preserves_offer_id_and_vendorCode_witness :
    (assignCategoryId [("VC", JVal.jstr "7")] witOffer).id = witOffer.id ∧
    (assignCategoryId [("VC", JVal.jstr "7")] witOffer).vendorCode = witOffer.vendorCode ∧
    (renameOffer "ua" witOffer).id = witOffer.id ∧
    (renameOffer "ua" witOffer).vendorCode = witOffer.vendorCode :=
  (build_preserves_offer_id_and_vendorCode { shop := some witShop } []
      [("VC", JVal.jstr "7")] "ua" witShop [witOffer] rfl rfl).1 witOffer

/-- C8: given the fetched document, a language build fails exactly when
the shop node or the offers node is missing, with the error message of
the source naming the missing node; any document with both nodes builds
successfully whatever the per-offer fields contain. -/
theorem build_error_iff_missing_shop_or_offers (doc : FeedDoc) (defs : List CatDef)
    (m : List (String × JVal)) (lang : String) :
    (build doc defs m lang = Except.error "Не найден <shop>" ↔ doc.shop = none) ∧
    (build doc defs m lang = Except.error "Не найден <offers>" ↔
      ∃ s : Shop, doc.shop = some s ∧ s.offers = none) ∧
    ((∃ out : FeedDoc, build doc defs m lang = Except.ok out) ↔
      ∃ s : Shop, ∃ l : List Offer, doc.shop = some s ∧ s.offers = some l) := by
  have hne : ("Не найден <shop>" : String) ≠ "Не найден <offers>" := by decide
  cases hs : doc.shop with
  | none =>
    refine ⟨by simp [build, hs], ?_, by simp [build, hs]⟩
    simp [build, hs, hne]
  | some s =>
    cases ho : s.offers with
    | none =>
      refine ⟨?_, ?_, ?_⟩
      · simp [build, hs, apply_categories, ho, hne.symm]
      · simp [build, hs, apply_categories, ho]
      · simp [build, hs, apply_categories, ho]
    | some l =>
      refine ⟨?_, ?_, ?_⟩
      · simp [build, hs, apply_categories, ho]
      · simp [build, hs, apply_categories, ho]
      · simp [build, hs, apply_categories, ho]
